import Mathlib

/-!
Verification of the hybrid MCP server infrastructure against its design
specification.  The definitions below are a shallow embedding of the Python
sources:

* `SSE`      — the event broadcaster of `mcp_sse_gmail.py` (identical code in
               `mcp_sse_sheets.py`): `GmailSSEServer.broadcast`, the
               `connections` set, and the route handlers.
* `Consumer` — the inbound update consumer of `main_telegram_agent.py`:
               `TelegramAgentServer.get_updates` / `process_update`.
* `Supervisor` — the process supervisor of `start_hybrid_servers.py`:
               `HybridServerManager.start_servers`, `_start_server`,
               `monitor_servers`, `health_check_loop`, `shutdown`.

External effects (process spawning, HTTP, socket writes) are modelled by
explicit outcome oracles passed as function arguments; state mutation is
explicit state passing.
-/

namespace SSE

/-- An SSE subscriber connection handle; the broadcaster treats it as opaque
(`self.connections` holds response stream objects). -/
abbrev Conn := Nat

/-- The outcome of `connection.write(...); await connection.drain()` for one
subscriber during one publish pass (mcp_sse_gmail.py lines 431-436).
`connReset` and `runtimeErr` are the two exception classes named in the
handler `except (ConnectionResetError, RuntimeError)`; `otherExc` is a write
failure of any other exception class. -/
inductive WriteOutcome where
  | ok
  | connReset
  | runtimeErr
  | otherExc
  deriving DecidableEq, Repr

/-- Whether the outcome is one of the exception classes caught by
`except (ConnectionResetError, RuntimeError)`. -/
def caught : WriteOutcome → Bool
  | .connReset => true
  | .runtimeErr => true
  | _ => false

/-- Whether the write completed without raising. -/
def wroteOk : WriteOutcome → Bool
  | .ok => true
  | _ => false

/-- The result of the `for connection in self.connections:` loop of
`broadcast` (mcp_sse_gmail.py lines 429-436): the connections whose write
completed (`delivered`), the local `disconnected` accumulator, the
connections whose write was attempted at all, and whether an exception
escaped the loop. -/
structure SendPass where
  delivered : List Conn
  disconnected : List Conn
  attempted : List Conn
  raised : Bool
  deriving DecidableEq, Repr

/-- The send loop of `broadcast`, over the subscriber set in iteration order.
A caught failure adds the connection to `disconnected` and continues; an
uncaught failure stops the loop at once (the exception propagates), keeping
the deliveries and markings already made. -/
def sendAll (w : Conn → WriteOutcome) : List Conn → SendPass
  | [] => ⟨[], [], [], false⟩
  | c :: rest =>
    match w c with
    | .ok =>
        let p := sendAll w rest
        ⟨c :: p.delivered, p.disconnected, c :: p.attempted, p.raised⟩
    | .connReset =>
        let p := sendAll w rest
        ⟨p.delivered, c :: p.disconnected, c :: p.attempted, p.raised⟩
    | .runtimeErr =>
        let p := sendAll w rest
        ⟨p.delivered, c :: p.disconnected, c :: p.attempted, p.raised⟩
    | .otherExc => ⟨[], [], [c], true⟩

/-- Observable result of one `broadcast` call: who received the event, the
subscriber set afterwards, whether an exception propagated out of the call,
and whether the zero-subscriber early return (`if not self.connections:
return`) was taken. -/
structure BroadcastResult where
  delivered : List Conn
  connections : List Conn
  raised : Bool
  noSubscriberBranch : Bool
  deriving DecidableEq, Repr

/-- Method `GmailSSEServer.broadcast` (mcp_sse_gmail.py lines 419-440), identical to
`SheetsSSEServer.broadcast` (mcp_sse_sheets.py lines 523-544): early return
on an empty subscriber set; otherwise run the send loop; if an exception
escaped the loop the eviction loop never runs and the set is unchanged;
otherwise `self.connections.discard(conn)` for each marked connection, after
the full pass. -/
def broadcast (w : Conn → WriteOutcome) (connections : List Conn) : BroadcastResult :=
  if connections.isEmpty then
    ⟨[], connections, false, true⟩
  else
    let p := sendAll w connections
    if p.raised then
      ⟨p.delivered, connections, true, false⟩
    else
      ⟨p.delivered, connections.filter (fun c => !(p.disconnected.contains c)), false, false⟩

/-- The operations of `GmailSSEServer` that can run after construction: the
six registered route handlers (`setup_routes`, mcp_sse_gmail.py lines
126-133) and `broadcast`.  None of the route handlers touches
`self.connections` except `health_handler`, which only reads its length. -/
inductive GmailOp where
  | handleSendEmail
  | handleSearchEmails
  | handleAuthRequest
  | handleAuthCallback
  | healthHandler
  | rootHandler
  | broadcastCall (w : Conn → WriteOutcome)

/-- Effect of each operation on `self.connections`: only `broadcast` mutates
the set (by eviction); no operation anywhere in the file adds to it. -/
def applyGmailOp : GmailOp → List Conn → List Conn
  | .broadcastCall w, conns => (broadcast w conns).connections
  | _, conns => conns

/-- Initially `self.connections = set()` in `GmailSSEServer.__init__` (line 54). -/
def initialConnections : List Conn := []

/-- The subscriber set after any sequence of server operations, starting from
construction. -/
def runGmailOps (ops : List GmailOp) : List Conn :=
  ops.foldl (fun conns op => applyGmailOp op conns) initialConnections

/-- The `"connections"` field of the `/health` response
(mcp_sse_gmail.py line 163): `len(self.connections)`. -/
def healthConnectionsCount (conns : List Conn) : Nat := conns.length

/-- Peer-determined completion behaviour of `await connection.drain()` for
one subscriber: `some d` — the drain completes after `d` time units;
`none` — the peer never drains its receive buffer and the await never
completes.  The source awaits the drain with no timeout wrapper
(mcp_sse_gmail.py line 433), so the duration of each write attempt is
exactly the peer-determined drain duration. -/
abbrev DrainTime := Conn → Option Nat

/-- The connections that actually receive the event during one publish pass
under the untimed sequential loop of `broadcast`: the loop reaches a
subscriber only if the drain of every earlier subscriber completed. -/
def timedDelivered (t : DrainTime) : List Conn → List Conn
  | [] => []
  | c :: rest =>
    match t c with
    | some _ => c :: timedDelivered t rest
    | none => []

/-- Total duration of the publish pass; `none` when some drain never
completes, in which case the `broadcast` call itself never returns. -/
def passDuration (t : DrainTime) : List Conn → Option Nat
  | [] => some 0
  | c :: rest =>
    match t c with
    | some d => (passDuration t rest).map (fun r => d + r)
    | none => none

/-- Concrete drain behaviour: the peer of subscriber 0 never drains; the
drain of subscriber 1 is instantaneous. -/
def tDead : DrainTime := fun c => if c = 0 then none else some 0

/-- Concrete subscriber set for the C5 witness. -/
def conns0 : List Conn := [0, 1, 2]

/-- Write outcomes for the C5 witness: the write to subscriber 0 fails with
`ConnectionResetError`, subscribers 1 and 2 succeed. -/
def w0 : Conn → WriteOutcome := fun c => if c = 0 then .connReset else .ok

/-- Write outcomes for the C9 witness: the write to subscriber 1 raises an
uncaught exception class, the others succeed. -/
def w1 : Conn → WriteOutcome := fun c => if c = 1 then .otherExc else .ok

end SSE

namespace Consumer

/-- One inbound update item as consumed by the polling loop; per the Bot API
contract each item carries a monotonically increasing `update_id`, and its
message names the chat it came from. -/
structure Update where
  update_id : Nat
  chat_id : Nat
  deriving DecidableEq, Repr

/-- Outcome of handing one update to the message handler: `failure` means the
handler raised an exception, which `process_message` catches at its item
boundary (main_telegram_agent.py lines 188-190). -/
inductive Dispatch where
  | success
  | failure
  deriving DecidableEq, Repr

/-- Mutable state of the consumer: the offset cursor `self.last_update_id`
and, as an observation trace, the `(update_id, chat_id)` of every
user-visible error notification (`send_error_message`) issued so far. -/
structure ConsumerState where
  last_update_id : Nat
  error_notifications : List (Nat × Nat)
  deriving DecidableEq, Repr

/-- Initially `self.last_update_id = 0` in `TelegramAgentServer.__init__` (line 40);
no notifications sent yet. -/
def initConsumer : ConsumerState := ⟨0, []⟩

/-- One iteration of the batch loop body of `get_updates` (lines 119-121) for
item `u`: `await self.process_update(update)` — which catches every exception
internally and, when the dispatch raised, sends the user-visible error
message — followed by `self.last_update_id = update["update_id"]`.  The
success-path outbound messages (welcome / workflow / basic response) are
out-of-scope business logic and are not traced. -/
def processItem (d : Update → Dispatch) (s : ConsumerState) (u : Update) : ConsumerState :=
  { last_update_id := u.update_id
  , error_notifications :=
      match d u with
      | .failure => s.error_notifications ++ [(u.update_id, u.chat_id)]
      | .success => s.error_notifications }

/-- The `for update in updates:` loop of `get_updates` over one fetched
batch, in arrival order. -/
def processBatch (d : Update → Dispatch) (s : ConsumerState) (batch : List Update) :
    ConsumerState :=
  batch.foldl (processItem d) s

/-- The `offset` request parameter built by `get_updates` (line 109):
`self.last_update_id + 1 if self.last_update_id else None`.  A `None`-valued
parameter is omitted from the request by the HTTP client, so `none` models
"no offset parameter sent". -/
def offsetParam (last_update_id : Nat) : Option Nat :=
  if last_update_id = 0 then none else some (last_update_id + 1)

/-- The cursor value observed after each batch of a sequence of fetched
batches, processed in order. -/
def cursorsAfter (d : Update → Dispatch) (s : ConsumerState) :
    List (List Update) → List Nat
  | [] => []
  | b :: bs =>
      let s' := processBatch d s b
      s'.last_update_id :: cursorsAfter d s' bs

/-- The consumer state after processing a sequence of fetched batches. -/
def runBatches (d : Update → Dispatch) (s : ConsumerState) :
    List (List Update) → ConsumerState
  | [] => s
  | b :: bs => runBatches d (processBatch d s b) bs

/-- Concrete batch parts for the C3 witness: the inbound batch
`[id=5, id=6, id=7]`, split around the failing item `id=6`. -/
def batchL : List Update := [⟨5, 9⟩]

/-- Item `id=6` of the C3 witness batch. -/
def u6 : Update := ⟨6, 9⟩

/-- Items after the failing one in the C3 witness batch. -/
def batchR : List Update := [⟨7, 9⟩]

/-- Concrete dispatch oracle: the handler raises exactly on item 6. -/
def d6 : Update → Dispatch := fun u => if u.update_id = 6 then .failure else .success

/-- Concrete batch sequence for the C6 and C7 witnesses. -/
def batches0 : List (List Update) := [[⟨1, 0⟩], [⟨2, 0⟩, ⟨3, 0⟩]]

/-- Concrete dispatch oracle for the C6 and C7 witnesses. -/
def d0 : Update → Dispatch := fun _ => .success

end Consumer

namespace Supervisor

/-- One entry of `self.servers` in `HybridServerManager.__init__`
(start_hybrid_servers.py lines 31-50): a static service descriptor. -/
structure Server where
  name : String
  script : String
  port : Nat
  description : String
  deriving DecidableEq, Repr

/-- One value of the `self.processes` dict (lines 150-155): the process
handle and the launch parameters recorded with it. -/
structure ProcInfo where
  pid : Nat
  script : String
  port : Nat
  description : String
  deriving DecidableEq, Repr

/-- Mutable state of the manager: the `self.processes` dict (as an
insertion-ordered association list with unique keys, like a Python dict),
`self.running` and `self.shutdown_requested`. -/
structure ManagerState where
  processes : List (String × ProcInfo)
  running : Bool
  shutdown_requested : Bool
  deriving DecidableEq, Repr

/-- From `HybridServerManager.__init__`: empty process table, both flags false. -/
def initManager : ManagerState := ⟨[], false, false⟩

/-- The static registry `self.servers` (lines 31-50). -/
def theServers : List Server :=
  [ ⟨"Gmail SSE", "mcp_sse_gmail.py", 8091, "Gmail API server"⟩
  , ⟨"Sheets SSE", "mcp_sse_sheets.py", 8092, "Google Sheets API server"⟩
  , ⟨"GDrive SSE", "mcp_sse_gdrive.py", 8093, "Google Drive API server"⟩ ]

/-- Assignment `self.processes[name] = v`: dict assignment keeps the position of an
existing key and appends a new key. -/
def dictSet (tbl : List (String × ProcInfo)) (k : String) (v : ProcInfo) :
    List (String × ProcInfo) :=
  if tbl.any (fun p => p.1 = k) then
    tbl.map (fun p => if p.1 = k then (k, v) else p)
  else tbl ++ [(k, v)]

/-- Statement `del self.processes[name]` on a key known to be present. -/
def dictDel (tbl : List (String × ProcInfo)) (k : String) : List (String × ProcInfo) :=
  tbl.filter (fun p => !(p.1 = k))

/-- Environment-determined outcome of one `_start_server` call for a
descriptor: `spawnError` — `subprocess.Popen` raised, nothing was stored;
`diedEarly` — the process was stored but `poll()` reported exit after the
3-second settle sleep; `started` — `poll()` reported the process still
running. -/
inductive LaunchOutcome where
  | spawnError
  | diedEarly (pid : Nat)
  | started (pid : Nat)
  deriving DecidableEq, Repr

/-- Whether `_start_server` returns `True` for this outcome. -/
def launchOk : LaunchOutcome → Bool
  | .started _ => true
  | _ => false

/-- The log lines `_start_server` emits for one outcome (message text
abbreviated; PIDs and stderr capture elided). -/
def startLogOf (outcome : LaunchOutcome) (srv : Server) : List String :=
  match outcome with
  | .spawnError => ["Failed to start " ++ srv.name]
  | .diedEarly _ => [srv.name ++ " failed to start"]
  | .started _ => [srv.name ++ " started successfully"]

/-- Method `HybridServerManager._start_server` (lines 131-174).  On `started` the
handle is stored and `True` returned.  On `diedEarly` the handle is first
stored, then `del self.processes[name]` removes it again, and `False` is
returned.  On `spawnError` the exception is caught before anything was
stored and `False` is returned. -/
def start_server (outcome : LaunchOutcome) (srv : Server) (s : ManagerState) :
    Bool × ManagerState × List String :=
  match outcome with
  | .spawnError => (false, s, startLogOf outcome srv)
  | .diedEarly pid =>
      let tbl := dictSet s.processes srv.name ⟨pid, srv.script, srv.port, srv.description⟩
      let s₁ := { s with processes := tbl }
      (false, { s₁ with processes := dictDel s₁.processes srv.name },
       startLogOf outcome srv)
  | .started pid =>
      let tbl := dictSet s.processes srv.name ⟨pid, srv.script, srv.port, srv.description⟩
      (true, { s with processes := tbl }, startLogOf outcome srv)

/-- Environment-determined outcome of stopping one tracked process during
`shutdown` (lines 242-254): `graceful` — `wait(timeout=10)` returned;
`forceKilled` — `TimeoutExpired`, then `kill()`; `stopError` — some
exception, caught by the per-process handler. -/
inductive TermOutcome where
  | graceful
  | forceKilled
  | stopError
  deriving DecidableEq, Repr

/-- The log line emitted for one stopped process. -/
def stopLog : TermOutcome → String → String
  | .graceful, name => name ++ " stopped gracefully"
  | .forceKilled, name => name ++ " force killed"
  | .stopError, name => "Error stopping " ++ name

/-- Method `HybridServerManager.shutdown` (lines 232-257): clear the flags, attempt
to stop every tracked process — every branch of the attempt, including an
exception, is handled locally and mutates no state — then
`self.processes.clear()` unconditionally. -/
def shutdown (term : String → TermOutcome) (s : ManagerState) :
    ManagerState × List String :=
  ({ s with running := false, shutdown_requested := true, processes := [] },
   s.processes.map (fun p => stopLog (term p.1) p.1))

/-- One iteration of the `for server in self.servers:` launch loop of
`start_servers` (lines 64-66): launch the descriptor from the accumulated
state and bump the success count when `_start_server` returned `True`. -/
def startStep (outcome : Server → LaunchOutcome)
    (acc : Nat × ManagerState × List String) (srv : Server) :
    Nat × ManagerState × List String :=
  let r := start_server (outcome srv) srv acc.2.1
  (acc.1 + (if r.1 then 1 else 0), r.2.1, acc.2.2 ++ r.2.2)

/-- Method `HybridServerManager.start_servers` (lines 54-88): launch every
descriptor in registry order, counting successes; if every launch succeeded
set `self.running` and return `True`; otherwise log the success count, call
`self.shutdown()` and return `False`. -/
def start_servers (outcome : Server → LaunchOutcome) (term : String → TermOutcome)
    (servers : List Server) (s : ManagerState) : Bool × ManagerState × List String :=
  let res := servers.foldl (startStep outcome) (0, s, [])
  if res.1 = servers.length then
    (true, { res.2.1 with running := true },
     res.2.2 ++ ["All SSE servers started successfully"])
  else
    let sd := shutdown term res.2.1
    (false, sd.1,
     res.2.2 ++ ["Only " ++ toString res.1 ++ "/" ++ toString servers.length
       ++ " servers started successfully"] ++ sd.2)

/-- Environment-determined result of one `GET /health` probe
(lines 220-227): HTTP 200, a non-200 status, or a raised exception
(timeout, connection refused, ...). -/
inductive HealthResult where
  | ok
  | httpError (code : Nat)
  | requestExc
  deriving DecidableEq, Repr

/-- Observable events of the two periodic loops. -/
inductive SupEvent where
  | restartAttempt (name : String)
  | healthPassed (name : String)
  | healthWarned (name : String)
  deriving DecidableEq, Repr

/-- One cycle of `health_check_loop` (lines 211-230): probe the health
endpoint of every tracked process; a non-200 response or an exception is
logged as a warning; no branch touches the process table or starts a
process. -/
def health_check_cycle (hr : String → HealthResult) (s : ManagerState) :
    ManagerState × List SupEvent :=
  (s, s.processes.map (fun p =>
      match hr p.1 with
      | .ok => .healthPassed p.1
      | .httpError _ => .healthWarned p.1
      | .requestExc => .healthWarned p.1))

/-- The `for name, info in list(self.processes.items()):` loop of one
`monitor_servers` cycle (lines 184-202), over a snapshot of the table.
`poll` gives the `poll()` result of each process handle at this cycle: `none` —
still running, skip; `some code` — exited, attempt a restart via
`_start_server`.  A failed restart then runs `del self.processes[name]`;
when the entry is already gone (a `diedEarly` restart deleted it inside
`_start_server`) that `del` raises `KeyError`, which the cycle-level
`except` catches, ending the loop early. -/
def monitorGo (poll : Nat → Option Int) (outcome : Server → LaunchOutcome)
    (servers : List Server) :
    List (String × ProcInfo) → ManagerState → List SupEvent →
    ManagerState × List SupEvent
  | [], s, evs => (s, evs)
  | (name, info) :: rest, s, evs =>
    match poll info.pid with
    | none => monitorGo poll outcome servers rest s evs
    | some _ =>
      let evs₁ := evs ++ [SupEvent.restartAttempt name]
      match servers.find? (fun v => v.name = name) with
      | none => monitorGo poll outcome servers rest s evs₁
      | some srv =>
        let r := start_server (outcome srv) srv s
        if r.1 then
          monitorGo poll outcome servers rest r.2.1 evs₁
        else
          if r.2.1.processes.any (fun p => p.1 = name) then
            monitorGo poll outcome servers rest
              { r.2.1 with processes := dictDel r.2.1.processes name } evs₁
          else
            (r.2.1, evs₁)

/-- One cycle of `monitor_servers` (lines 180-205). -/
def monitor_cycle (poll : Nat → Option Int) (outcome : Server → LaunchOutcome)
    (servers : List Server) (s : ManagerState) : ManagerState × List SupEvent :=
  monitorGo poll outcome servers s.processes s []

/-- Concrete launch outcomes: Gmail and Sheets start, the GDrive process
exits during the settle interval. -/
def cLaunch : Server → LaunchOutcome := fun srv =>
  if srv.name = "GDrive SSE" then .diedEarly 13
  else if srv.name = "Sheets SSE" then .started 12 else .started 11

/-- Concrete manager state for the C8 witness: one tracked process. -/
def mState0 : ManagerState :=
  ⟨[("Gmail SSE", ⟨11, "mcp_sse_gmail.py", 8091, "Gmail API server"⟩)], true, false⟩

/-- Concrete poll oracle for the C8 witness: every process has exited with
code 1. -/
def pollExited : Nat → Option Int := fun _ => some 1

/-- Concrete launch oracle for the C8 witness: every restart succeeds. -/
def restartOk : Server → LaunchOutcome := fun _ => .started 21

/-- Concrete health oracle for the C8 witness. -/
def healthAllOk : String → HealthResult := fun _ => .ok

end Supervisor

namespace SSE

/-- C4: the claim requires every per-subscriber write attempt during
`broadcast` to be bounded in time.  The code awaits `connection.drain()`
with no timeout wrapper, so with subscriber set `[0, 1]` where subscriber
0 has a peer that never drains, the publish pass never completes and subscriber 1 —
which alone would receive the event immediately — never receives it. -/
theorem broadcast_dead_subscriber_blocks_delivery :
    timedDelivered tDead [0, 1] = []
    ∧ passDuration tDead [0, 1] = none
    ∧ timedDelivered tDead [1] = [1] := by decide

/-- When no write raises an uncaught exception, the send loop attempts every
connection, delivers to exactly those whose write completed, marks exactly
those whose write raised a caught exception, and completes normally. -/
lemma sendAll_no_raise (w : Conn → WriteOutcome) :
    ∀ conns : List Conn, (∀ c ∈ conns, w c ≠ .otherExc) →
    sendAll w conns =
      ⟨conns.filter (fun c => wroteOk (w c)),
       conns.filter (fun c => caught (w c)), conns, false⟩ := by
  intro conns
  induction conns with
  | nil => intro _; rfl
  | cons c rest ih =>
    intro h
    have hrest := ih (fun x hx => h x (by simp [hx]))
    cases hw : w c with
    | ok => simp [sendAll, hw, hrest, List.filter_cons, wroteOk, caught]
    | connReset => simp [sendAll, hw, hrest, List.filter_cons, wroteOk, caught]
    | runtimeErr => simp [sendAll, hw, hrest, List.filter_cons, wroteOk, caught]
    | otherExc => exact absurd hw (h c (by simp))

/-- When the write to `c` raises an uncaught exception and every write
before it did not, the send loop stops at `c`: the connections after `c`
are never attempted, and the deliveries and markings already made are
kept. -/
lemma sendAll_raise (w : Conn → WriteOutcome) (c : Conn) (l₂ : List Conn)
    (h₂ : w c = .otherExc) :
    ∀ l₁ : List Conn, (∀ x ∈ l₁, w x ≠ .otherExc) →
    sendAll w (l₁ ++ c :: l₂) =
      ⟨l₁.filter (fun x => wroteOk (w x)),
       l₁.filter (fun x => caught (w x)), l₁ ++ [c], true⟩ := by
  intro l₁
  induction l₁ with
  | nil => intro _; simp [sendAll, h₂]
  | cons x rest ih =>
    intro h
    have hr := ih (fun y hy => h y (by simp [hy]))
    cases hw : w x with
    | ok => simp [sendAll, hw, hr, List.filter_cons, wroteOk, caught]
    | connReset => simp [sendAll, hw, hr, List.filter_cons, wroteOk, caught]
    | runtimeErr => simp [sendAll, hw, hr, List.filter_cons, wroteOk, caught]
    | otherExc => exact absurd hw (h x (by simp))

/-- C5: in one `broadcast` call over any subscriber set in which every
write failure is of a caught class, a failure to one subscriber does not
prevent delivery to any other subscriber whose own write succeeds — every
connection is attempted and exactly the successful writes are delivered —
no exception escapes, and the failed subscribers are removed from the set
only after the full pass, leaving exactly the non-failed connections. -/
theorem broadcast_isolation_iterate_then_evict (w : Conn → WriteOutcome)
    (conns : List Conn) (h : ∀ c ∈ conns, w c ≠ .otherExc) :
    (broadcast w conns).delivered = conns.filter (fun c => wroteOk (w c))
    ∧ (broadcast w conns).connections = conns.filter (fun c => !(caught (w c)))
    ∧ (broadcast w conns).raised = false
    ∧ (sendAll w conns).attempted = conns := by
  have hs := sendAll_no_raise w conns h
  cases conns with
  | nil => exact ⟨rfl, rfl, rfl, rfl⟩
  | cons a rest =>
    have hfo : broadcast w (a :: rest) =
        ⟨(a :: rest).filter (fun c => wroteOk (w c)),
         (a :: rest).filter
           (fun c => !(((a :: rest).filter (fun y => caught (w y))).contains c)),
         false, false⟩ := by
      simp [broadcast, hs]
    rw [hfo]
    refine ⟨rfl, ?_, rfl, by rw [hs]⟩
    apply List.filter_congr
    intro x hx
    by_cases hcx : caught (w x) = true
    · have hxmem : x ∈ (a :: rest).filter (fun y => caught (w y)) :=
        List.mem_filter.mpr ⟨hx, hcx⟩
      simp [hcx, hxmem]
    · have hxnot : x ∉ (a :: rest).filter (fun y => caught (w y)) := by
        intro hmem
        exact hcx (List.mem_filter.mp hmem).2
      simp only [Bool.not_eq_true] at hcx
      simp [hcx, hxnot]

/-- C5 witness: the isolation theorem at a concrete input — subscriber 0
fails, subscribers 1 and 2 still receive the event, and only 0 is evicted,
after the full pass. -/
theorem broadcast_isolation_witness :
    (∀ c ∈ conns0, w0 c ≠ .otherExc)
    ∧ ((broadcast w0 conns0).delivered = conns0.filter (fun c => wroteOk (w0 c))
      ∧ (broadcast w0 conns0).connections = conns0.filter (fun c => !(caught (w0 c)))
      ∧ (broadcast w0 conns0).raised = false
      ∧ (sendAll w0 conns0).attempted = conns0) :=
  ⟨by decide, broadcast_isolation_iterate_then_evict w0 conns0 (by decide)⟩

/-- C9: during a publish pass, only `ConnectionResetError` and
`RuntimeError` are caught; a write failure of any other exception class
propagates out of `broadcast` — delivery stops at the failing subscriber,
and because the eviction loop never runs, no subscriber is evicted (the set
is unchanged).  Conversely, when every failure is of a caught class, the
call completes without raising. -/
theorem broadcast_uncaught_exception_propagates (w : Conn → WriteOutcome)
    (l₁ l₂ : List Conn) (c : Conn)
    (h₁ : ∀ x ∈ l₁, w x ≠ .otherExc) (h₂ : w c = .otherExc) :
    broadcast w (l₁ ++ c :: l₂) =
      ⟨l₁.filter (fun x => wroteOk (w x)), l₁ ++ c :: l₂, true, false⟩
    ∧ ∀ conns, (∀ x ∈ conns, w x ≠ .otherExc) →
        (broadcast w conns).raised = false := by
  constructor
  · have hs := sendAll_raise w c l₂ h₂ l₁ h₁
    have hne : (l₁ ++ c :: l₂).isEmpty = false := by cases l₁ <;> rfl
    simp [broadcast, hne, hs]
  · intro conns hc
    have hs := sendAll_no_raise w conns hc
    cases conns with
    | nil => rfl
    | cons a rest => simp [broadcast, hs]

/-- C9 witness: the propagation theorem at a concrete input — subscriber 1
raises an uncaught exception, subscriber 0 (before it) was delivered,
subscriber 2 (after it) was not, and nobody was evicted. -/
theorem broadcast_uncaught_witness :
    (∀ x ∈ [0], w1 x ≠ .otherExc)
    ∧ (broadcast w1 ([0] ++ 1 :: [2]) =
        ⟨[0].filter (fun x => wroteOk (w1 x)), [0] ++ 1 :: [2], true, false⟩
      ∧ ∀ conns, (∀ x ∈ conns, w1 x ≠ .otherExc) →
          (broadcast w1 conns).raised = false) :=
  ⟨by decide,
   broadcast_uncaught_exception_propagates w1 [0] [2] 1 (by decide) (by decide)⟩

/-- C2: starting from construction, no operation of `GmailSSEServer` ever
adds a connection to `self.connections`, so after any sequence of
operations the subscriber set is still empty, the health endpoint reports
`connections = 0`, and every `broadcast` call takes the zero-subscriber
early-return branch. -/
theorem gmail_connections_always_empty (ops : List GmailOp) :
    runGmailOps ops = []
    ∧ healthConnectionsCount (runGmailOps ops) = 0
    ∧ ∀ w, (broadcast w (runGmailOps ops)).noSubscriberBranch = true := by
  have key : runGmailOps ops = [] := by
    have h : ∀ (l : List GmailOp) (start : List Conn), start = [] →
        l.foldl (fun conns op => applyGmailOp op conns) start = [] := by
      intro l
      induction l with
      | nil => intro s hs; simpa using hs
      | cons op rest ih =>
        intro s hs
        subst hs
        exact ih (applyGmailOp op []) (by cases op <;> rfl)
    exact h ops initialConnections rfl
  refine ⟨key, by simp [healthConnectionsCount, key], fun w => ?_⟩
  rw [key]
  rfl

end SSE

namespace Consumer

/-- C7 counterexample: at cursor value 0 — the initial state of the
consumer — the built `offset` parameter is omitted (`None`), not
`cursor + 1` as the claim states for every cursor value. -/
theorem offset_at_zero_cursor_cex :
    offsetParam initConsumer.last_update_id = none
    ∧ offsetParam initConsumer.last_update_id ≠ some (initConsumer.last_update_id + 1) := by
  decide

/-- After a nonempty batch, the cursor is the identifier of the batch's last
item, whatever the starting state and dispatch outcomes. -/
lemma processBatch_cursor (d : Update → Dispatch) :
    ∀ (batch : List Update) (s : ConsumerState) (h : batch ≠ []),
      (processBatch d s batch).last_update_id = (batch.getLast h).update_id := by
  intro batch
  induction batch with
  | nil => intro s h; exact absurd rfl h
  | cons u rest ih =>
    intro s h
    cases rest with
    | nil => rfl
    | cons v t =>
      have step : processBatch d s (u :: v :: t)
          = processBatch d (processItem d s u) (v :: t) := rfl
      rw [step, ih (processItem d s u) (by simp)]
      exact congrArg Update.update_id (List.getLast_cons (by simp)).symm

/-- Processing a batch never removes an already-issued error
notification. -/
lemma processBatch_errors_mono (d : Update → Dispatch) :
    ∀ (batch : List Update) (s : ConsumerState) (x : Nat × Nat),
      x ∈ s.error_notifications → x ∈ (processBatch d s batch).error_notifications := by
  intro batch
  induction batch with
  | nil => intro s x hx; exact hx
  | cons u rest ih =>
    intro s x hx
    refine ih (processItem d s u) x ?_
    unfold processItem
    cases d u <;> simp [hx]

/-- Every item of the batch whose dispatch failed got a user-visible error
notification. -/
lemma processBatch_errors_of_failure (d : Update → Dispatch) :
    ∀ (batch : List Update) (s : ConsumerState) (u : Update),
      u ∈ batch → d u = .failure →
      (u.update_id, u.chat_id) ∈ (processBatch d s batch).error_notifications := by
  intro batch
  induction batch with
  | nil => intro s u hu _; exact absurd hu (by simp)
  | cons v rest ih =>
    intro s u hu hf
    rcases List.mem_cons.mp hu with hv | hr
    · subst hv
      refine processBatch_errors_mono d rest (processItem d s u) _ ?_
      unfold processItem
      rw [hf]
      simp
    · exact ih (processItem d s v) u hr hf

/-- In a list whose identifiers are strictly increasing, the last item has
the maximal identifier. -/
lemma getLast_update_ge :
    ∀ (l : List Update) (h : l ≠ []),
      l.Pairwise (fun a b => a.update_id < b.update_id) →
      ∀ u ∈ l, u.update_id ≤ (l.getLast h).update_id := by
  intro l
  induction l with
  | nil => intro h; exact absurd rfl h
  | cons a t ih =>
    intro h hp u hu
    rcases List.pairwise_cons.mp hp with ⟨ha, ht⟩
    cases t with
    | nil =>
      rcases List.mem_cons.mp hu with hua | hut
      · subst hua; exact Nat.le_refl _
      · exact absurd hut (by simp)
    | cons b t' =>
      rw [List.getLast_cons (by simp)]
      rcases List.mem_cons.mp hu with hua | hut
      · subst hua
        exact Nat.le_of_lt (ha _ (List.getLast_mem (by simp)))
      · exact ih (by simp) ht u hut

/-- C3: for every inbound batch, the cursor is set to the identifier of each
item after the dispatch attempt regardless of outcome; a dispatch failure
on one item yields a user-visible error notification for that item and
does not stop the loop — the cursor ends at the batch's last item — and the
next fetch requests only identifiers strictly above the failed item, so it
is never re-fetched. -/
theorem consumer_failure_advances_cursor_and_notifies
    (d : Update → Dispatch) (s : ConsumerState) (l₁ l₂ : List Update) (u : Update)
    (hf : d u = .failure) (hpos : 0 < u.update_id)
    (hs : (l₁ ++ u :: l₂).Pairwise (fun a b => a.update_id < b.update_id)) :
    (∀ (d' : Update → Dispatch) (s' : ConsumerState) (u' : Update),
        (processItem d' s' u').last_update_id = u'.update_id)
    ∧ (u.update_id, u.chat_id) ∈ (processBatch d s (l₁ ++ u :: l₂)).error_notifications
    ∧ (processBatch d s (l₁ ++ u :: l₂)).last_update_id
        = ((l₁ ++ u :: l₂).getLast (by simp)).update_id
    ∧ offsetParam (processBatch d s (l₁ ++ u :: l₂)).last_update_id
        = some ((processBatch d s (l₁ ++ u :: l₂)).last_update_id + 1)
    ∧ u.update_id < (processBatch d s (l₁ ++ u :: l₂)).last_update_id + 1 := by
  have hne : l₁ ++ u :: l₂ ≠ [] := by simp
  have hmem : u ∈ l₁ ++ u :: l₂ := by simp
  have hcur := processBatch_cursor d (l₁ ++ u :: l₂) s hne
  have hub : u.update_id ≤ (processBatch d s (l₁ ++ u :: l₂)).last_update_id := by
    rw [hcur]
    exact getLast_update_ge (l₁ ++ u :: l₂) hne hs u hmem
  have hcpos : 0 < (processBatch d s (l₁ ++ u :: l₂)).last_update_id :=
    Nat.lt_of_lt_of_le hpos hub
  refine ⟨fun _ _ _ => rfl,
    processBatch_errors_of_failure d (l₁ ++ u :: l₂) s u hmem hf,
    hcur, ?_, Nat.lt_succ_of_le hub⟩
  unfold offsetParam
  rw [if_neg (Nat.pos_iff_ne_zero.mp hcpos)]

/-- C3 witness: the theorem at the concrete batch `[id=5, id=6, id=7]` with
item 6 failing — the cursor ends at 7, the error notification for item 6 was
sent, and the next fetch offset is 8, so item 6 is never re-fetched. -/
theorem consumer_failure_witness :
    (d6 u6 = .failure ∧ 0 < u6.update_id
      ∧ (batchL ++ u6 :: batchR).Pairwise (fun a b => a.update_id < b.update_id))
    ∧ ((∀ (d' : Update → Dispatch) (s' : ConsumerState) (u' : Update),
          (processItem d' s' u').last_update_id = u'.update_id)
      ∧ (u6.update_id, u6.chat_id)
          ∈ (processBatch d6 initConsumer (batchL ++ u6 :: batchR)).error_notifications
      ∧ (processBatch d6 initConsumer (batchL ++ u6 :: batchR)).last_update_id
          = ((batchL ++ u6 :: batchR).getLast (by simp)).update_id
      ∧ offsetParam (processBatch d6 initConsumer (batchL ++ u6 :: batchR)).last_update_id
          = some ((processBatch d6 initConsumer (batchL ++ u6 :: batchR)).last_update_id + 1)
      ∧ u6.update_id
          < (processBatch d6 initConsumer (batchL ++ u6 :: batchR)).last_update_id + 1) :=
  ⟨⟨by decide, by decide, by decide⟩,
   consumer_failure_advances_cursor_and_notifies d6 initConsumer batchL batchR u6
     (by decide) (by decide) (by decide)⟩

/-- Core invariant of the batch loop: over any sequence of nonempty batches
with globally increasing identifiers, the cursor after batch `k` is an
identifier occurring in batch `k` and bounds every identifier of batch `k`
from above, and the sequence of cursors is non-decreasing. -/
lemma cursorsAfter_spec (d : Update → Dispatch) :
    ∀ (bs : List (List Update)) (s : ConsumerState),
      (∀ b ∈ bs, b ≠ []) →
      bs.flatten.Pairwise (fun a b => a.update_id < b.update_id) →
      (∀ k, k < bs.length →
        ((cursorsAfter d s bs).getD k 0 ∈ (bs.getD k []).map Update.update_id
          ∧ ∀ u ∈ bs.getD k [], u.update_id ≤ (cursorsAfter d s bs).getD k 0))
      ∧ (cursorsAfter d s bs).Chain' (· ≤ ·) := by
  intro bs
  induction bs with
  | nil =>
    intro s _ _
    exact ⟨fun k hk => absurd hk (Nat.not_lt_zero k), List.chain'_nil⟩
  | cons b bs ih =>
    intro s hne hs
    have hb : b ≠ [] := hne b (by simp)
    rw [List.flatten_cons, List.pairwise_append] at hs
    obtain ⟨pb, pbs, cross⟩ := hs
    have hcur : (processBatch d s b).last_update_id = (b.getLast hb).update_id :=
      processBatch_cursor d b s hb
    have ihh := ih (processBatch d s b) (fun x hx => hne x (by simp [hx])) pbs
    have hcons : cursorsAfter d s (b :: bs)
        = (processBatch d s b).last_update_id
          :: cursorsAfter d (processBatch d s b) bs := rfl
    constructor
    · intro k hk
      cases k with
      | zero =>
        rw [hcons]
        simp only [List.getD_cons_zero]
        constructor
        · rw [hcur]
          exact List.mem_map.mpr ⟨b.getLast hb, List.getLast_mem hb, rfl⟩
        · intro u hu
          rw [hcur]
          exact getLast_update_ge b hb pb u hu
      | succ k =>
        rw [hcons]
        simp only [List.getD_cons_succ]
        exact ihh.1 k (by simpa using hk)
    · rw [hcons]
      refine List.chain'_cons'.mpr ⟨?_, ihh.2⟩
      intro y hy
      cases bs with
      | nil =>
        have hnone : (cursorsAfter d (processBatch d s b)
            ([] : List (List Update))).head? = none := rfl
        rw [hnone] at hy
        exact absurd hy (by simp)
      | cons b₁ bs' =>
        have hb₁ : b₁ ≠ [] := hne b₁ (by simp)
        have hhead : (cursorsAfter d (processBatch d s b) (b₁ :: bs')).head?
            = some ((processBatch d (processBatch d s b) b₁).last_update_id) := rfl
        rw [hhead] at hy
        have hy' : y = (b₁.getLast hb₁).update_id := by
          have := Option.some_inj.mp hy
          rw [← this, processBatch_cursor d b₁ (processBatch d s b) hb₁]
        rw [hy', hcur]
        refine Nat.le_of_lt (cross _ (List.getLast_mem hb) _ ?_)
        exact List.mem_flatten.mpr ⟨b₁, by simp, List.getLast_mem hb₁⟩

/-- C6: for any sequence of nonempty fetched batches with monotonically
increasing identifiers, starting from the initial consumer state, the
cursor after batch `k` equals the maximum identifier of batch `k` (it is an
identifier present in batch `k` and bounds all of them), and the cursor
sequence never decreases and is never rolled back. -/
theorem cursor_monotone_equals_batch_max (d : Update → Dispatch)
    (bs : List (List Update)) (hne : ∀ b ∈ bs, b ≠ [])
    (hs : bs.flatten.Pairwise (fun a b => a.update_id < b.update_id)) :
    (∀ k, k < bs.length →
      ((cursorsAfter d initConsumer bs).getD k 0 ∈ (bs.getD k []).map Update.update_id
        ∧ ∀ u ∈ bs.getD k [], u.update_id ≤ (cursorsAfter d initConsumer bs).getD k 0))
    ∧ (cursorsAfter d initConsumer bs).Chain' (· ≤ ·) :=
  cursorsAfter_spec d bs initConsumer hne hs

/-- C6 witness: the invariant at the concrete batch sequence
`[[id=1], [id=2, id=3]]`. -/
theorem cursor_monotone_witness :
    ((∀ b ∈ batches0, b ≠ [])
      ∧ batches0.flatten.Pairwise (fun a b => a.update_id < b.update_id))
    ∧ ((∀ k, k < batches0.length →
        ((cursorsAfter d0 initConsumer batches0).getD k 0
            ∈ (batches0.getD k []).map Update.update_id
          ∧ ∀ u ∈ batches0.getD k [],
              u.update_id ≤ (cursorsAfter d0 initConsumer batches0).getD k 0))
      ∧ (cursorsAfter d0 initConsumer batches0).Chain' (· ≤ ·)) :=
  ⟨⟨by decide, by decide⟩,
   cursor_monotone_equals_batch_max d0 batches0 (by decide) (by decide)⟩

/-- Processing a sequence of batches is processing their concatenation. -/
lemma runBatches_eq_flatten (d : Update → Dispatch) :
    ∀ (bs : List (List Update)) (s : ConsumerState),
      runBatches d s bs = processBatch d s bs.flatten := by
  intro bs
  induction bs with
  | nil => intro s; rfl
  | cons b bs ih =>
    intro s
    have step : runBatches d s (b :: bs) = runBatches d (processBatch d s b) bs := rfl
    rw [step, ih, List.flatten_cons]
    unfold processBatch
    rw [List.foldl_append]

/-- C7 amended: the `offset` request parameter equals `cursor + 1` for
every nonzero cursor — in particular after any nonempty processed history —
and exceeds every already-processed identifier, so the consumer never
requests an offset at or below one; only at the initial cursor value 0 is
the parameter omitted instead. -/
theorem offset_strictly_after_processed (d : Update → Dispatch) (s : ConsumerState)
    (bs : List (List Update)) (hne : bs.flatten ≠ [])
    (hpos : ∀ u ∈ bs.flatten, 0 < u.update_id)
    (hs : bs.flatten.Pairwise (fun a b => a.update_id < b.update_id)) :
    offsetParam 0 = none
    ∧ offsetParam (runBatches d s bs).last_update_id
        = some ((runBatches d s bs).last_update_id + 1)
    ∧ ∀ u ∈ bs.flatten, u.update_id < (runBatches d s bs).last_update_id + 1 := by
  have he := runBatches_eq_flatten d bs s
  have hcur : (runBatches d s bs).last_update_id
      = (bs.flatten.getLast hne).update_id := by
    rw [he]
    exact processBatch_cursor d bs.flatten s hne
  have hub : ∀ u ∈ bs.flatten,
      u.update_id ≤ (runBatches d s bs).last_update_id := by
    intro u hu
    rw [hcur]
    exact getLast_update_ge bs.flatten hne hs u hu
  have hposc : 0 < (runBatches d s bs).last_update_id := by
    rw [hcur]
    exact hpos _ (List.getLast_mem hne)
  refine ⟨rfl, ?_, fun u hu => Nat.lt_succ_of_le (hub u hu)⟩
  unfold offsetParam
  rw [if_neg (Nat.pos_iff_ne_zero.mp hposc)]

/-- C7 witness: the amended offset property at the concrete batch sequence
`[[id=1], [id=2, id=3]]` — the final cursor is 3 and the next request
carries `offset = 4`, strictly above every processed identifier. -/
theorem offset_strictly_after_processed_witness :
    (batches0.flatten ≠ []
      ∧ (∀ u ∈ batches0.flatten, 0 < u.update_id)
      ∧ batches0.flatten.Pairwise (fun a b => a.update_id < b.update_id))
    ∧ (offsetParam 0 = none
      ∧ offsetParam (runBatches d0 initConsumer batches0).last_update_id
          = some ((runBatches d0 initConsumer batches0).last_update_id + 1)
      ∧ ∀ u ∈ batches0.flatten,
          u.update_id < (runBatches d0 initConsumer batches0).last_update_id + 1) :=
  ⟨⟨by decide, by decide, by decide⟩,
   offset_strictly_after_processed d0 initConsumer batches0
     (by decide) (by decide) (by decide)⟩

end Consumer

namespace Supervisor

/-- C1 counterexample: with the real registry, when Gmail and Sheets start
successfully and GDrive dies immediately, `start_servers` does not keep the
two started services running — it returns `False` with the process table
cleared (both started services were shut down) and shutdown requested,
aborting the system. -/
theorem start_servers_failure_shuts_down_started_cex :
    (start_servers cLaunch (fun _ => .graceful) theServers initManager).1 = false
    ∧ (start_servers cLaunch (fun _ => .graceful) theServers initManager).2.1.processes = []
    ∧ (start_servers cLaunch (fun _ => .graceful) theServers initManager).2.1.running = false
    ∧ (start_servers cLaunch (fun _ => .graceful) theServers
        initManager).2.1.shutdown_requested = true := by
  refine ⟨rfl, rfl, rfl, rfl⟩

/-- Helper fact: `_start_server` returns `True` exactly when the launch outcome
is `started`. -/
lemma start_server_flag (o : LaunchOutcome) (srv : Server) (s : ManagerState) :
    (start_server o srv s).1 = launchOk o := by
  cases o <;> rfl

/-- Helper fact: the log of `_start_server` depends only on the outcome and
descriptor. -/
lemma start_server_log (o : LaunchOutcome) (srv : Server) (s : ManagerState) :
    (start_server o srv s).2.2 = startLogOf o srv := by
  cases o <;> rfl

/-- One launch step, with its components spelled out. -/
lemma startStep_eval (outcome : Server → LaunchOutcome) (n : Nat)
    (s : ManagerState) (log : List String) (srv : Server) :
    startStep outcome (n, s, log) srv
      = (n + (if launchOk (outcome srv) then 1 else 0),
         (start_server (outcome srv) srv s).2.1,
         log ++ startLogOf (outcome srv) srv) := by
  unfold startStep
  dsimp only
  rw [start_server_flag, start_server_log]

/-- The launch fold counts exactly the descriptors whose launch outcome is
a success. -/
lemma startFold_count (outcome : Server → LaunchOutcome) :
    ∀ (servers : List Server) (n : Nat) (s : ManagerState) (log : List String),
      (servers.foldl (startStep outcome) (n, s, log)).1
        = n + (servers.filter (fun v => launchOk (outcome v))).length := by
  intro servers
  induction servers with
  | nil => intro n s log; simp
  | cons srv rest ih =>
    intro n s log
    have step : (srv :: rest).foldl (startStep outcome) (n, s, log)
        = rest.foldl (startStep outcome) (startStep outcome (n, s, log) srv) := rfl
    rw [step, startStep_eval, ih, List.filter_cons]
    cases h : launchOk (outcome srv)
    · simp [h]
    · simp [h]
      omega

/-- The launch fold only appends to the log. -/
lemma startFold_log_mono (outcome : Server → LaunchOutcome) :
    ∀ (servers : List Server) (n : Nat) (s : ManagerState) (log : List String)
      (m : String), m ∈ log →
      m ∈ (servers.foldl (startStep outcome) (n, s, log)).2.2 := by
  intro servers
  induction servers with
  | nil => intro n s log m hm; exact hm
  | cons srv rest ih =>
    intro n s log m hm
    have step : (srv :: rest).foldl (startStep outcome) (n, s, log)
        = rest.foldl (startStep outcome) (startStep outcome (n, s, log) srv) := rfl
    rw [step, startStep_eval]
    exact ih _ _ _ m (List.mem_append.mpr (Or.inl hm))

/-- The per-launch log line of each descriptor ends up in the fold log. -/
lemma startFold_log_mem (outcome : Server → LaunchOutcome) :
    ∀ (servers : List Server) (n : Nat) (s : ManagerState) (log : List String)
      (srv : Server), srv ∈ servers →
      ∀ m ∈ startLogOf (outcome srv) srv,
        m ∈ (servers.foldl (startStep outcome) (n, s, log)).2.2 := by
  intro servers
  induction servers with
  | nil => intro n s log srv hsrv; exact absurd hsrv (by simp)
  | cons v rest ih =>
    intro n s log srv hsrv m hm
    have step : (v :: rest).foldl (startStep outcome) (n, s, log)
        = rest.foldl (startStep outcome) (startStep outcome (n, s, log) v) := rfl
    rw [step, startStep_eval]
    rcases List.mem_cons.mp hsrv with hv | hr
    · subst hv
      exact startFold_log_mono outcome rest _ _ _ m
        (List.mem_append.mpr (Or.inr hm))
    · exact ih _ _ _ srv hr m hm

/-- C1 amended: when at least one service fails to start, `start_servers`
still reports the per-launch outcome of that service in its log, but then aborts
the whole system: it returns `False`, shuts the successfully started
services down, clears the process table and requests shutdown, rather than
keeping the started services running. -/
theorem start_servers_failure_aborts (outcome : Server → LaunchOutcome)
    (term : String → TermOutcome) (servers : List Server) (s : ManagerState)
    (srv : Server) (h₁ : srv ∈ servers) (h₂ : launchOk (outcome srv) = false) :
    (start_servers outcome term servers s).1 = false
    ∧ (start_servers outcome term servers s).2.1.processes = []
    ∧ (start_servers outcome term servers s).2.1.running = false
    ∧ (start_servers outcome term servers s).2.1.shutdown_requested = true
    ∧ ∀ m ∈ startLogOf (outcome srv) srv,
        m ∈ (start_servers outcome term servers s).2.2 := by
  have hcnt := startFold_count outcome servers 0 s []
  have hlt : (servers.filter (fun v => launchOk (outcome v))).length < servers.length :=
    List.length_filter_lt_length_iff_exists.mpr ⟨srv, h₁, by simp [h₂]⟩
  have hne : (servers.foldl (startStep outcome) (0, s, [])).1 ≠ servers.length := by
    rw [hcnt]
    omega
  have key : start_servers outcome term servers s
      = (false,
         (shutdown term (servers.foldl (startStep outcome) (0, s, [])).2.1).1,
         (servers.foldl (startStep outcome) (0, s, [])).2.2
           ++ ["Only " ++ toString (servers.foldl (startStep outcome) (0, s, [])).1
               ++ "/" ++ toString servers.length ++ " servers started successfully"]
           ++ (shutdown term (servers.foldl (startStep outcome) (0, s, [])).2.1).2) := by
    unfold start_servers
    rw [if_neg hne]
  rw [key]
  refine ⟨rfl, rfl, rfl, rfl, ?_⟩
  intro m hm
  exact List.mem_append.mpr (Or.inl (List.mem_append.mpr
    (Or.inl (startFold_log_mem outcome servers 0 s [] srv h₁ m hm))))

/-- C1 amended witness: at the concrete registry with GDrive dying early,
`start_servers` returns `False` with an empty process table and the GDrive
failure reported in the log. -/
theorem start_servers_failure_aborts_witness :
    (Server.mk "GDrive SSE" "mcp_sse_gdrive.py" 8093 "Google Drive API server" ∈ theServers
      ∧ launchOk (cLaunch ⟨"GDrive SSE", "mcp_sse_gdrive.py", 8093,
          "Google Drive API server"⟩) = false)
    ∧ ((start_servers cLaunch (fun _ => TermOutcome.graceful) theServers initManager).1 = false
      ∧ (start_servers cLaunch (fun _ => TermOutcome.graceful) theServers
          initManager).2.1.processes = []
      ∧ (start_servers cLaunch (fun _ => TermOutcome.graceful) theServers
          initManager).2.1.running = false
      ∧ (start_servers cLaunch (fun _ => TermOutcome.graceful) theServers
          initManager).2.1.shutdown_requested = true
      ∧ ∀ m ∈ startLogOf (cLaunch ⟨"GDrive SSE", "mcp_sse_gdrive.py", 8093,
            "Google Drive API server"⟩)
          ⟨"GDrive SSE", "mcp_sse_gdrive.py", 8093, "Google Drive API server"⟩,
          m ∈ (start_servers cLaunch (fun _ => TermOutcome.graceful) theServers
            initManager).2.2) :=
  ⟨⟨by decide, by decide⟩,
   start_servers_failure_aborts cLaunch (fun _ => TermOutcome.graceful) theServers
     initManager ⟨"GDrive SSE", "mcp_sse_gdrive.py", 8093, "Google Drive API server"⟩
     (by decide) (by decide)⟩

/-- Splitting a membership in an event list extended with one restart
attempt. -/
lemma restart_mem_append (name ename : String) (evs : List SupEvent)
    (h : SupEvent.restartAttempt name ∈ evs ++ [SupEvent.restartAttempt ename]) :
    SupEvent.restartAttempt name ∈ evs ∨ name = ename := by
  rcases List.mem_append.mp h with hl | hr
  · exact Or.inl hl
  · right
    simpa using List.mem_singleton.mp hr

/-- Any restart attempt recorded by the monitor loop traces back to a
snapshot entry whose OS process handle reported an exit (`poll()` not
`None`). -/
lemma monitorGo_restart_source (poll : Nat → Option Int)
    (outcome : Server → LaunchOutcome) (servers : List Server) (name : String) :
    ∀ (entries : List (String × ProcInfo)) (s : ManagerState) (evs : List SupEvent),
      SupEvent.restartAttempt name ∈ (monitorGo poll outcome servers entries s evs).2 →
      SupEvent.restartAttempt name ∈ evs
      ∨ ∃ info, (name, info) ∈ entries ∧ poll info.pid ≠ none := by
  intro entries
  induction entries with
  | nil =>
    intro s evs h
    exact Or.inl h
  | cons e rest ih =>
    obtain ⟨ename, einfo⟩ := e
    intro s evs h
    cases hp : poll einfo.pid with
    | none =>
      simp only [monitorGo, hp] at h
      rcases ih s evs h with h' | ⟨info, hm, hpoll⟩
      · exact Or.inl h'
      · exact Or.inr ⟨info, List.mem_cons_of_mem _ hm, hpoll⟩
    | some code =>
      simp only [monitorGo, hp] at h
      have hsrc : SupEvent.restartAttempt name ∈ evs ++ [SupEvent.restartAttempt ename]
          ∨ ∃ info, (name, info) ∈ rest ∧ poll info.pid ≠ none := by
        cases hf : servers.find? (fun v => v.name = ename) with
        | none =>
          simp only [hf] at h
          exact ih _ _ h
        | some srv =>
          simp only [hf] at h
          by_cases hr1 : (start_server (outcome srv) srv s).1 = true
          · rw [if_pos hr1] at h
            exact ih _ _ h
          · rw [if_neg hr1] at h
            by_cases hany : ((start_server (outcome srv) srv s).2.1.processes.any
                (fun p => p.1 = ename)) = true
            · rw [if_pos hany] at h
              exact ih _ _ h
            · rw [if_neg hany] at h
              exact Or.inl h
      rcases hsrc with he | ⟨info, hm, hpoll⟩
      · rcases restart_mem_append name ename evs he with h' | hname
        · exact Or.inl h'
        · subst hname
          exact Or.inr ⟨einfo, List.mem_cons_self _ _, by simp [hp]⟩
      · exact Or.inr ⟨info, List.mem_cons_of_mem _ hm, hpoll⟩

/-- C8: a health-check failure never by itself restarts a service — one
health-check cycle leaves the manager state untouched and emits no restart
attempt whatever the probe results — while any restart attempt emitted by a
monitor cycle is for a tracked process whose OS process handle reported
that the process has exited. -/
theorem health_failure_never_restarts (poll : Nat → Option Int)
    (outcome : Server → LaunchOutcome) (servers : List Server)
    (hr : String → HealthResult) (s : ManagerState) (name : String)
    (h : SupEvent.restartAttempt name ∈ (monitor_cycle poll outcome servers s).2) :
    (∃ info, (name, info) ∈ s.processes ∧ poll info.pid ≠ none)
    ∧ (health_check_cycle hr s).1 = s
    ∧ ∀ ev ∈ (health_check_cycle hr s).2, ∀ n, ev ≠ SupEvent.restartAttempt n := by
  refine ⟨?_, rfl, ?_⟩
  · rcases monitorGo_restart_source poll outcome servers name s.processes s [] h
      with h' | hex
    · exact absurd h' (by simp)
    · exact hex
  · intro ev hev n
    rcases List.mem_map.mp hev with ⟨p, _, hpe⟩
    subst hpe
    cases hres : hr p.1 <;> simp [hres]

/-- C8 witness: the theorem at a concrete state with one tracked, exited
process whose restart is attempted by the monitor cycle. -/
theorem health_failure_never_restarts_witness :
    (SupEvent.restartAttempt "Gmail SSE"
        ∈ (monitor_cycle pollExited restartOk theServers mState0).2)
    ∧ ((∃ info, ("Gmail SSE", info) ∈ mState0.processes ∧ pollExited info.pid ≠ none)
      ∧ (health_check_cycle healthAllOk mState0).1 = mState0
      ∧ ∀ ev ∈ (health_check_cycle healthAllOk mState0).2,
          ∀ n, ev ≠ SupEvent.restartAttempt n) :=
  ⟨by decide,
   health_failure_never_restarts pollExited restartOk theServers healthAllOk mState0
     "Gmail SSE" (by decide)⟩

/-- C10: `shutdown` always clears the process table, whatever the
per-process termination outcomes, and a second invocation (as performed by
the `finally` block of `main`) leaves the already-cleared state unchanged and
performs no stop attempts. -/
theorem shutdown_idempotent_clears_table (term term₂ : String → TermOutcome)
    (s : ManagerState) :
    (shutdown term s).1.processes = []
    ∧ shutdown term₂ (shutdown term s).1 = ((shutdown term s).1, []) :=
  ⟨rfl, rfl⟩

end Supervisor
